import Mathlib

/-!
Shallow embedding of the credential pool scheduler (`gemini_pool.py`) of the
Novaxai repository, together with theorems settling the spec claims about it.

Modelling conventions:
* Timestamps (`time.time()` values) are modelled as `Int`; every operation that
  reads the clock takes the current time as an explicit argument.
* The Python dict `key_status` (credential string → record) is modelled as a
  `List APIKeyStatus` in insertion order; dict assignment is `setStatus`.
* Fallible unit-of-work calls are modelled as `Except String α` (the `String`
  is the exception message the code string-matches on).
* Stateful methods become functions `GeminiAPIPool → ... → result × GeminiAPIPool`;
  the retry loops additionally return the list of pool events they perform
  (selections, failure marks, sleeps), so that the two retry variants can be
  compared event by event.
-/

namespace GeminiPool

/-- `APIKeyStatus` dataclass: per-credential record (`gemini_pool.py` lines 9-15). -/
structure APIKeyStatus where
  key : String
  last_used : Int
  request_count : Nat
  is_available : Bool := true
  cooldown_until : Int := 0
deriving DecidableEq

/-- State of a `GeminiAPIPool` instance: the mutable fields set in `__init__`
(`gemini_pool.py` lines 17-37).  `key_status` keeps the dict's values in
insertion order. -/
structure GeminiAPIPool where
  api_keys : List String
  key_status : List APIKeyStatus
  current_index : Nat
  max_requests_per_minute : Nat
  cooldown_duration : Int
deriving DecidableEq

/-- Python dict assignment `d[k] = v`: replace the record stored under `k`
if present (keeping its position), else append. -/
def setStatus (l : List APIKeyStatus) (k : String) (v : APIKeyStatus) :
    List APIKeyStatus :=
  if l.any (fun s => s.key == k) then
    l.map (fun s => if s.key == k then v else s)
  else
    l ++ [v]

/-- `GeminiAPIPool.__init__` (`gemini_pool.py` lines 18-37): one fresh record
per key, `max_requests_per_minute = 60`, `cooldown_duration = 60`. -/
def initPool (api_keys : List String) : GeminiAPIPool :=
  { api_keys := api_keys
    key_status :=
      api_keys.foldl
        (fun acc key => setStatus acc key
          { key := key, last_used := 0, request_count := 0 }) []
    current_index := 0
    max_requests_per_minute := 60
    cooldown_duration := 60 }

/-- The cooldown sweep at the top of `get_available_key`
(`gemini_pool.py` lines 44-48): every record with `cooldown_until < current_time`
gets `is_available = True` and `request_count = 0`. -/
def reset_cooldowns (l : List APIKeyStatus) (current_time : Int) :
    List APIKeyStatus :=
  l.map (fun status =>
    if status.cooldown_until < current_time then
      { status with is_available := true, request_count := 0 }
    else status)

/-- The filter condition of `available_keys` (`gemini_pool.py` lines 51-54). -/
def isCandidate (max_requests_per_minute : Nat) (status : APIKeyStatus) : Bool :=
  status.is_available && decide (status.request_count < max_requests_per_minute)

/-- The sort key `lambda x: (x.request_count, x.last_used)` of line 62, as a
boolean total preorder (Python tuple `<=`). -/
def keyLe (a b : APIKeyStatus) : Bool :=
  decide (a.request_count < b.request_count) ||
    (a.request_count == b.request_count && decide (a.last_used ≤ b.last_used))

/-- `keyLe` as a relation, for `List.insertionSort`. -/
def keyLeR (a b : APIKeyStatus) : Prop := keyLe a b = true

instance : DecidableRel keyLeR := fun _ _ => instDecidableEqBool _ _

/-- `GeminiAPIPool.get_available_key` (`gemini_pool.py` lines 39-69):
sweep cooldowns, filter candidates, stable-sort by `(request_count, last_used)`
(Python's `list.sort` is stable; so is `List.insertionSort`), pick the first,
stamp `last_used = now` and bump its `request_count`.
The empty-sort case is exactly the code's `if not available_keys: return None`
(sorting the empty list gives the empty list). -/
def get_available_key (p : GeminiAPIPool) (current_time : Int) :
    Option String × GeminiAPIPool :=
  let ks := reset_cooldowns p.key_status current_time
  let available_keys := ks.filter (isCandidate p.max_requests_per_minute)
  match List.insertionSort keyLeR available_keys with
  | [] => (none, { p with key_status := ks })
  | selected :: _ =>
      (some selected.key,
        { p with key_status :=
            ks.map (fun s =>
              if s.key == selected.key then
                { s with last_used := current_time,
                         request_count := s.request_count + 1 }
              else s) })

/-- `GeminiAPIPool.mark_key_failed` (`gemini_pool.py` lines 71-78): if the key
is in the dict, clear its availability and set `cooldown_until = now +
cooldown_duration`; the `error_type` is only logged. -/
def mark_key_failed (p : GeminiAPIPool) (api_key : String)
    (error_type : String) (current_time : Int) : GeminiAPIPool :=
  if p.key_status.any (fun s => s.key == api_key) then
    { p with key_status :=
        p.key_status.map (fun s =>
          if s.key == api_key then
            { s with is_available := false,
                     cooldown_until := current_time + p.cooldown_duration }
          else s) }
  else p

/-- Case-insensitive substring test, the model of Python's
`"quota" in error_msg` (the message is lowercased by the caller). -/
def hasSubstr (s pat : String) : Bool :=
  decide (pat.toList <:+: s.toList)

/-- Python's `str.lower()`: lower-case every character (character-wise model of
`String.toLower`). -/
def strLower (s : String) : String :=
  ⟨s.toList.map Char.toLower⟩

/-- Observable pool actions performed by the retry loops: a successful
`get_available_key` (`acquired`), a failed one (`noKey`), an
`asyncio.sleep` with its duration in seconds, and a `mark_key_failed`
call with its `error_type`. -/
inductive PoolEvent where
  | acquired (key : String)
  | noKey
  | sleep (seconds : ℚ)
  | markedFailed (key : String) (error_type : String)
deriving DecidableEq

/-- Outcome of a retry loop: a returned value, a raised exception (by its
message), or Python's implicit `return None` after a zero-iteration loop. -/
inductive RetryResult (α : Type) where
  | ok (a : α)
  | raised (msg : String)
  | returnedNone
deriving DecidableEq

/-- Map the success payload of a `RetryResult`, leaving exceptions alone. -/
def RetryResult.map (f : α → β) : RetryResult α → RetryResult β
  | .ok a => .ok (f a)
  | .raised msg => .raised msg
  | .returnedNone => .returnedNone

/-- One iteration's error handling (`gemini_pool.py` lines 101-109): classify
the lowercased message and mark the key failed for quota/rate and invalid
errors; anything else is only logged.  Returns the new pool and the
`markedFailed` events emitted. -/
def handleAttemptError (p : GeminiAPIPool) (api_key e : String) (now : Int) :
    GeminiAPIPool × List PoolEvent :=
  let error_msg := strLower e
  if hasSubstr error_msg "quota" || hasSubstr error_msg "rate" then
    (mark_key_failed p api_key "rate_limit" now, [.markedFailed api_key "rate_limit"])
  else if hasSubstr error_msg "invalid" then
    (mark_key_failed p api_key "invalid_key" now, [.markedFailed api_key "invalid_key"])
  else
    (p, [])

/-- The loop of `generate_content_with_retry` (`gemini_pool.py` lines 82-116),
by recursion on the number of remaining iterations; the current attempt index
is `max_retries - remaining`.  `uow n k` is the unit of work (the upstream
call) at attempt `n` with key `k`; `tAcq n` / `tFail n` are the clock readings
taken inside `get_available_key` / `mark_key_failed` during attempt `n`. -/
def genRetryAux (uow : Nat → String → Except String α) (tAcq tFail : Nat → Int)
    (max_retries : Nat) :
    Nat → GeminiAPIPool → RetryResult α × GeminiAPIPool × List PoolEvent
  | 0, p => (.returnedNone, p, [])
  | remaining + 1, p =>
    let attempt := max_retries - (remaining + 1)
    match get_available_key p (tAcq attempt) with
    | (none, p1) =>
        if remaining = 0 then
          (.raised "All API keys exhausted", p1, [.noKey])
        else
          let (r, p2, evs) := genRetryAux uow tAcq tFail max_retries remaining p1
          (r, p2, .noKey :: .sleep 1 :: evs)
    | (some api_key, p1) =>
        match uow attempt api_key with
        | .ok response => (.ok response, p1, [.acquired api_key])
        | .error e =>
            let (p2, evs1) := handleAttemptError p1 api_key e (tFail attempt)
            if remaining = 0 then
              (.raised e, p2, .acquired api_key :: evs1)
            else
              let (r, p3, evs) := genRetryAux uow tAcq tFail max_retries remaining p2
              (r, p3, .acquired api_key :: evs1 ++ .sleep (1/2) :: evs)

/-- `GeminiAPIPool.generate_content_with_retry` (`gemini_pool.py` lines 80-116). -/
def generate_content_with_retry (p : GeminiAPIPool)
    (uow : Nat → String → Except String α) (tAcq tFail : Nat → Int)
    (max_retries : Nat := 3) : RetryResult α × GeminiAPIPool × List PoolEvent :=
  genRetryAux uow tAcq tFail max_retries max_retries p

/-- The loop of `generate_content_stream_with_retry`
(`gemini_pool.py` lines 120-150): same shape as `genRetryAux`, except that the
unit of work opens a stream (so the success payload is the stream handle) and
the unclassified-error branch does not even log. -/
def genStreamRetryAux (uow : Nat → String → Except String β) (tAcq tFail : Nat → Int)
    (max_retries : Nat) :
    Nat → GeminiAPIPool → RetryResult β × GeminiAPIPool × List PoolEvent
  | 0, p => (.returnedNone, p, [])
  | remaining + 1, p =>
    let attempt := max_retries - (remaining + 1)
    match get_available_key p (tAcq attempt) with
    | (none, p1) =>
        if remaining = 0 then
          (.raised "All API keys exhausted", p1, [.noKey])
        else
          let (r, p2, evs) := genStreamRetryAux uow tAcq tFail max_retries remaining p1
          (r, p2, .noKey :: .sleep 1 :: evs)
    | (some api_key, p1) =>
        match uow attempt api_key with
        | .ok response => (.ok response, p1, [.acquired api_key])
        | .error e =>
            let (p2, evs1) := handleAttemptError p1 api_key e (tFail attempt)
            if remaining = 0 then
              (.raised e, p2, .acquired api_key :: evs1)
            else
              let (r, p3, evs) := genStreamRetryAux uow tAcq tFail max_retries remaining p2
              (r, p3, .acquired api_key :: evs1 ++ .sleep (1/2) :: evs)

/-- `GeminiAPIPool.generate_content_stream_with_retry`
(`gemini_pool.py` lines 118-150). -/
def generate_content_stream_with_retry (p : GeminiAPIPool)
    (uow : Nat → String → Except String β) (tAcq tFail : Nat → Int)
    (max_retries : Nat := 3) : RetryResult β × GeminiAPIPool × List PoolEvent :=
  genStreamRetryAux uow tAcq tFail max_retries max_retries p

/-- One entry of the `keys` list built by `get_pool_status`
(`gemini_pool.py` lines 163-168). -/
structure KeyInfo where
  key_id : String
  available : Bool
  request_count : Nat
  cooldown_remaining : Int
deriving DecidableEq

/-- The dict returned by `get_pool_status` (`gemini_pool.py` lines 155-160). -/
structure PoolStatusRec where
  total_keys : Nat
  available_keys : Nat
  rate_limited_keys : Nat
  keys : List KeyInfo
deriving DecidableEq

/-- Python `key[-8:]`: the last 8 characters of the key (the whole key when
shorter). -/
def lastChars (s : String) (n : Nat) : String :=
  ⟨s.toList.drop (s.toList.length - n)⟩

/-- The `key_info` dict built for one record inside the loop of
`get_pool_status` (`gemini_pool.py` lines 163-168). -/
def keyInfoOf (current_time : Int) (key_status : APIKeyStatus) : KeyInfo :=
  { key_id := lastChars key_status.key 8
    available := key_status.is_available
    request_count := key_status.request_count
    cooldown_remaining := max 0 (key_status.cooldown_until - current_time) }

/-- One iteration of the loop of `get_pool_status`
(`gemini_pool.py` lines 162-175). -/
def statusStep (current_time : Int) (status : PoolStatusRec)
    (key_status : APIKeyStatus) : PoolStatusRec :=
  let key_info := keyInfoOf current_time key_status
  let status :=
    if key_status.is_available then
      { status with available_keys := status.available_keys + 1 }
    else
      { status with rate_limited_keys := status.rate_limited_keys + 1 }
  { status with keys := status.keys ++ [key_info] }

/-- `GeminiAPIPool.get_pool_status` (`gemini_pool.py` lines 152-177), modelled
like every other method as state → result × state; its body only reads records,
so the state it returns is the one it was given. -/
def get_pool_status (p : GeminiAPIPool) (current_time : Int) :
    PoolStatusRec × GeminiAPIPool :=
  let status : PoolStatusRec :=
    { total_keys := p.api_keys.length
      available_keys := 0
      rate_limited_keys := 0
      keys := [] }
  (p.key_status.foldl (statusStep current_time) status, p)

/-- A sequence of `get_available_key` calls at the given times, collecting the
returned keys (used to state the temporal cooldown claim). -/
def runAcquires (p : GeminiAPIPool) :
    List Int → List (Option String) × GeminiAPIPool
  | [] => ([], p)
  | t :: ts =>
      ((get_available_key p t).1
          :: (runAcquires (get_available_key p t).2 ts).1,
       (runAcquires (get_available_key p t).2 ts).2)

/-- The candidate set computed by `get_available_key` at time `t`: the
post-sweep records passing the availability filter (`gemini_pool.py`
lines 50-54). -/
def candidatesAt (p : GeminiAPIPool) (t : Int) : List APIKeyStatus :=
  (reset_cooldowns p.key_status t).filter (isCandidate p.max_requests_per_minute)

/-- `k` is eligible for selection at time `t`: after the cooldown sweep its
record passes the candidate filter of `get_available_key`. -/
def eligibleKey (p : GeminiAPIPool) (k : String) (t : Int) : Bool :=
  (candidatesAt p t).any (fun s => s.key == k)

/-- Events that open a loop iteration of the retry loops: each iteration
performs exactly one `get_available_key` call, successful or not. -/
def isAttemptStart : PoolEvent → Bool
  | .acquired _ => true
  | .noKey => true
  | _ => false

/-! ## General lemmas about the embedded operations -/

theorem keyLe_total (a b : APIKeyStatus) : keyLe a b = true ∨ keyLe b a = true := by
  simp only [keyLe, Bool.or_eq_true, decide_eq_true_eq, Bool.and_eq_true, beq_iff_eq]
  rcases Nat.lt_trichotomy a.request_count b.request_count with h | h | h
  · exact Or.inl (Or.inl h)
  · rcases Int.le_total a.last_used b.last_used with h2 | h2
    · exact Or.inl (Or.inr ⟨h, h2⟩)
    · exact Or.inr (Or.inr ⟨h.symm, h2⟩)
  · exact Or.inr (Or.inl h)

theorem keyLe_trans {a b c : APIKeyStatus} (h1 : keyLe a b = true)
    (h2 : keyLe b c = true) : keyLe a c = true := by
  simp only [keyLe, Bool.or_eq_true, decide_eq_true_eq, Bool.and_eq_true,
    beq_iff_eq] at h1 h2 ⊢
  rcases h1 with h1 | ⟨h1a, h1b⟩ <;> rcases h2 with h2 | ⟨h2a, h2b⟩
  · exact Or.inl (Nat.lt_trans h1 h2)
  · exact Or.inl (h2a ▸ h1)
  · exact Or.inl (h1a ▸ h2)
  · exact Or.inr ⟨h1a.trans h2a, h1b.trans h2b⟩

instance : IsTotal APIKeyStatus keyLeR := ⟨keyLe_total⟩

instance : IsTrans APIKeyStatus keyLeR := ⟨fun _ _ _ => keyLe_trans⟩

theorem keyLe_refl (a : APIKeyStatus) : keyLe a a = true := by
  simp [keyLe]

/-- Mapping a key-preserving function over the records leaves the list of
credential strings untouched. -/
theorem map_key_preserving (l : List APIKeyStatus) (f : APIKeyStatus → APIKeyStatus)
    (hf : ∀ s, (f s).key = s.key) :
    (l.map f).map APIKeyStatus.key = l.map APIKeyStatus.key := by
  rw [List.map_map]
  congr 1
  funext s
  exact hf s

theorem reset_cooldowns_map_key (l : List APIKeyStatus) (t : Int) :
    (reset_cooldowns l t).map APIKeyStatus.key = l.map APIKeyStatus.key := by
  apply map_key_preserving
  intro s
  split <;> rfl

/-- The dict update `self.key_status[k].field = v`, modelled as a guarded map,
changes exactly one position when the credential strings are distinct. -/
theorem map_update_eq_set (l : List APIKeyStatus)
    (hnd : (l.map APIKeyStatus.key).Nodup) (i : Fin l.length)
    (g : APIKeyStatus → APIKeyStatus) :
    l.map (fun s => if s.key == (l.get i).key then g s else s)
      = l.set i (g (l.get i)) := by
  apply List.ext_getElem
  · simp
  intro n h1 h2
  have hn : n < l.length := by simpa using h2
  rw [List.getElem_map, List.getElem_set]
  by_cases hni : i.val = n
  · subst hni
    simp [List.get_eq_getElem]
  · have hkey : l[n].key ≠ l[i.val].key := by
      intro he
      apply hni
      have hinj := List.nodup_iff_injective_get.mp hnd
      have : (l.map APIKeyStatus.key).get ⟨i.val, by simpa using i.isLt⟩
          = (l.map APIKeyStatus.key).get ⟨n, by simpa using hn⟩ := by
        simp [List.get_eq_getElem, List.getElem_map, he]
      have := hinj this
      simpa using this
    have hfalse : (l[n].key == (l.get i).key) = false := by
      simpa [List.get_eq_getElem] using hkey
    rw [hfalse]
    simp [hni]

/-! ## Claim C1 -/

/-- Claim C1 (code bug): the cooldown sweep of `get_available_key` is claimed
to reset only records with `available == false` whose cooldown has elapsed and
to leave `request_count` of available records unchanged.  The code's sweep
(`gemini_pool.py` lines 45-48) tests only `cooldown_until < current_time`, so
an available, never-failed record (`cooldown_until = 0`) has its
`request_count` wiped on every call: here a record with `request_count = 5`
and `available = true` is reset to `request_count = 0` by the sweep. -/
theorem C1_sweep_resets_available_records :
    reset_cooldowns
        [{ key := "k1", last_used := 0, request_count := 5,
           is_available := true, cooldown_until := 0 }] 10
      = [{ key := "k1", last_used := 0, request_count := 0,
           is_available := true, cooldown_until := 0 }] := by
  decide

/-! ## Claim C2 -/

/-- Claim C2 (code bug): with 2 fresh credentials and
`max_requests_per_minute = 1`, at any fixed positive time the first call
returns `key1`, the second returns `key2`, but the third returns `key1`
again instead of the claimed `None`: the sweep resets every
`request_count` at the start of each call (see C1), so soft exhaustion
never blocks selection. -/
theorem C2_third_call_returns_credential :
    (get_available_key { initPool ["key1", "key2"] with
        max_requests_per_minute := 1 } 1).1 = some "key1" ∧
    (get_available_key (get_available_key { initPool ["key1", "key2"] with
        max_requests_per_minute := 1 } 1).2 1).1 = some "key2" ∧
    (get_available_key (get_available_key (get_available_key
        { initPool ["key1", "key2"] with max_requests_per_minute := 1 } 1).2
        1).2 1).1 = some "key1" := by
  decide

/-! ## Claim C3 -/

/-- Claim C3 counterexample: a unit of work that always fails with an
unclassified error (`"boom"`) never cools any credential down, so the single
credential stays available; with `max_retries = 2` the final attempt re-raises
the unit-of-work error `"boom"`, which is not the distinct pool-exhausted
exception `"All API keys exhausted"`. -/
theorem C3_counterexample :
    (generate_content_with_retry (initPool ["k1"])
        (fun _ _ => (Except.error "boom" : Except String String))
        (fun _ => 1) (fun _ => 1) 2).1 = RetryResult.raised "boom" ∧
    RetryResult.raised "boom"
      ≠ (RetryResult.raised "All API keys exhausted" : RetryResult String) := by
  decide

theorem handleAttemptError_events_countP (p : GeminiAPIPool) (k e : String)
    (t : Int) :
    ((handleAttemptError p k e t).2).countP isAttemptStart = 0 := by
  simp only [handleAttemptError]
  split_ifs <;> simp [isAttemptStart]

theorem handleAttemptError_events_not_start (p : GeminiAPIPool) (k e : String)
    (t : Int) :
    ∀ ev ∈ (handleAttemptError p k e t).2, isAttemptStart ev = false := by
  simp only [handleAttemptError]
  split_ifs <;> simp [isAttemptStart]

/-- With an always-failing unit of work, every run of the retry loop with at
least one iteration raises; the trace either ends with the final attempt's
`noKey` event (and the message is the pool-exhausted one), or its last
attempt-start event is `acquired k` for some `k`, followed only by
`markedFailed` events, and the message is the final attempt's (`M - 1`) own
unit-of-work error on `k`. -/
theorem genRetryAux_always_fails (uow : Nat → String → Except String α)
    (tAcq tFail : Nat → Int) (M : Nat)
    (hfail : ∀ n k, ∃ e, uow n k = Except.error e) :
    ∀ (remaining : Nat) (p : GeminiAPIPool), 0 < remaining →
      ∃ msg p2 evs,
        genRetryAux uow tAcq tFail M remaining p
          = (RetryResult.raised msg, p2, evs) ∧
        evs.countP isAttemptStart = remaining ∧
        ((∃ evs1, evs = evs1 ++ [PoolEvent.noKey] ∧
            msg = "All API keys exhausted") ∨
         (∃ evs1 k evs2, evs = evs1 ++ PoolEvent.acquired k :: evs2 ∧
            (∀ ev ∈ evs2, isAttemptStart ev = false) ∧
            uow (M - 1) k = Except.error msg))
  | 0, _, h => absurd h (Nat.lt_irrefl 0)
  | remaining + 1, p, _ => by
    rw [genRetryAux]
    by_cases hr : remaining = 0
    · subst hr
      simp only [Nat.zero_add]
      rcases hga : get_available_key p (tAcq (M - 1)) with ⟨k?, p1⟩
      rcases k? with _ | k
      · refine ⟨"All API keys exhausted", p1, [.noKey], by simp, ?_,
          Or.inl ⟨[], rfl, rfl⟩⟩
        simp [List.countP_cons, isAttemptStart]
      · obtain ⟨e, he⟩ := hfail (M - 1) k
        have hevs1 := handleAttemptError_events_countP p1 k e (tFail (M - 1))
        have hall := handleAttemptError_events_not_start p1 k e (tFail (M - 1))
        rcases hhe : handleAttemptError p1 k e (tFail (M - 1)) with ⟨p2, evs1⟩
        rw [hhe] at hevs1 hall
        refine ⟨e, p2, .acquired k :: evs1, by simp [he, hhe], ?_,
          Or.inr ⟨[], k, evs1, rfl, hall, he⟩⟩
        simp [List.countP_cons, isAttemptStart, hevs1]
    · generalize M - (remaining + 1) = n
      rcases hga : get_available_key p (tAcq n) with ⟨k?, p1⟩
      rcases k? with _ | k
      · obtain ⟨msg, p2, evs, heq, hcount, hor⟩ :=
          genRetryAux_always_fails uow tAcq tFail M hfail remaining p1
            (Nat.pos_of_ne_zero hr)
        refine ⟨msg, p2, .noKey :: .sleep 1 :: evs, by simp [hr, heq], ?_, ?_⟩
        · simp [List.countP_cons, isAttemptStart, hcount]
        · rcases hor with ⟨evs1, hevs, hmsg⟩ | ⟨evs1, k, evs2, hevs, hall, huow⟩
          · exact Or.inl ⟨.noKey :: .sleep 1 :: evs1, by rw [hevs]; simp, hmsg⟩
          · exact Or.inr ⟨.noKey :: .sleep 1 :: evs1, k, evs2,
              by rw [hevs]; simp, hall, huow⟩
      · obtain ⟨e, he⟩ := hfail n k
        have hevs1 := handleAttemptError_events_countP p1 k e (tFail n)
        rcases hhe : handleAttemptError p1 k e (tFail n) with ⟨p2, evs1⟩
        rw [hhe] at hevs1
        obtain ⟨msg, p3, evs, heq, hcount, hor⟩ :=
          genRetryAux_always_fails uow tAcq tFail M hfail remaining p2
            (Nat.pos_of_ne_zero hr)
        refine ⟨msg, p3, .acquired k :: evs1 ++ .sleep (1/2) :: evs,
          by simp [he, hr, hhe, heq], ?_, ?_⟩
        · simp [List.countP_cons, List.countP_append, isAttemptStart, hevs1,
            hcount]
        · rcases hor with ⟨evsa, hevs, hmsg⟩ | ⟨evsa, k2, evs2, hevs, hall, huow⟩
          · refine Or.inl
              ⟨.acquired k :: evs1 ++ .sleep (1/2) :: evsa, ?_, hmsg⟩
            rw [hevs]
            simp
          · refine Or.inr
              ⟨.acquired k :: evs1 ++ .sleep (1/2) :: evsa, k2, evs2, ?_,
                hall, huow⟩
            rw [hevs]
            simp

/-- Claim C3 (amended): if every invocation of the unit of work fails, then
`generate_content_with_retry` with `max_retries = N ≥ 1` always raises an
exception after exactly N loop attempts (each attempt starts with exactly one
`get_available_key` call, counted by `isAttemptStart`) and never returns a
non-error result; and the raised exception is determined by the final
attempt's branch: either the trace ends with the final attempt's `noKey`
event and the distinct pool-exhausted error `"All API keys exhausted"` is
raised (`gemini_pool.py` line 90), or the trace's last attempt-start event is
`acquired k` (followed only by `markedFailed` events) and the final attempt's
(index `N - 1`) own unit-of-work error on `k` is re-raised
(`gemini_pool.py` lines 111-112). -/
theorem C3_amended_exhaustion (p : GeminiAPIPool)
    (uow : Nat → String → Except String α) (tAcq tFail : Nat → Int) (N : Nat)
    (hfail : ∀ n k, ∃ e, uow n k = Except.error e) (hN : 0 < N) :
    ∃ msg p2 evs,
      generate_content_with_retry p uow tAcq tFail N
        = (RetryResult.raised msg, p2, evs) ∧
      evs.countP isAttemptStart = N ∧
      ((∃ evs1, evs = evs1 ++ [PoolEvent.noKey] ∧
          msg = "All API keys exhausted") ∨
       (∃ evs1 k evs2, evs = evs1 ++ PoolEvent.acquired k :: evs2 ∧
          (∀ ev ∈ evs2, isAttemptStart ev = false) ∧
          uow (N - 1) k = Except.error msg)) :=
  genRetryAux_always_fails uow tAcq tFail N hfail N p hN

/-- Witness for C3 (amended) at `N = 1` on a 1-credential pool with an
always-failing unit of work. -/
theorem C3_amended_witness :
    (∀ (n : Nat) (k : String), ∃ e,
      (fun (_ : Nat) (_ : String) =>
        (Except.error "boom" : Except String String)) n k = Except.error e) ∧
    (0 : Nat) < 1 ∧
    (∃ msg p2 evs,
      generate_content_with_retry (initPool ["k1"])
          (fun _ _ => (Except.error "boom" : Except String String))
          (fun _ => 1) (fun _ => 1) 1
        = (RetryResult.raised msg, p2, evs) ∧
      evs.countP isAttemptStart = 1 ∧
      ((∃ evs1, evs = evs1 ++ [PoolEvent.noKey] ∧
          msg = "All API keys exhausted") ∨
       (∃ evs1 k evs2, evs = evs1 ++ PoolEvent.acquired k :: evs2 ∧
          (∀ ev ∈ evs2, isAttemptStart ev = false) ∧
          (fun (_ : Nat) (_ : String) =>
            (Except.error "boom" : Except String String)) (1 - 1) k
              = Except.error msg))) :=
  ⟨fun _ _ => ⟨"boom", rfl⟩, by decide,
    C3_amended_exhaustion (initPool ["k1"])
      (fun _ _ => (Except.error "boom" : Except String String))
      (fun _ => 1) (fun _ => 1) 1 (fun _ _ => ⟨"boom", rfl⟩) (by decide)⟩

/-! ## Claim C4 -/

/-- Claim C4 counterexample: a run of `generate_content_with_retry` on a
1-credential pool whose unit of work fails with the unclassified error
`"boom"` leaves the credential with `is_available = true` and
`cooldown_until = 0` — it is not cooled down, contradicting the claim that
`other` errors get `available = false` and `cooldown_until = now +
cooldown_duration` like the other kinds. -/
theorem C4_counterexample :
    ((generate_content_with_retry (initPool ["k1"])
        (fun _ _ => (Except.error "boom" : Except String String))
        (fun _ => 1) (fun _ => 1) 1).2.1.key_status.map
      (fun s => (s.is_available, s.cooldown_until))) = [(true, 0)] := by
  decide

/-- Claim C4 (amended): an attempt failure whose lowercased message contains
neither `"quota"` nor `"rate"` nor `"invalid"` is classified `other` and does
*not* cool the failing credential down: the error handler of
`generate_content_with_retry` (`gemini_pool.py` lines 101-109) leaves the pool
unchanged and performs no `mark_key_failed` call (the `else` branch only
logs). -/
theorem C4_amended_other_error_no_cooldown (p : GeminiAPIPool) (k e : String)
    (t : Int)
    (hq : hasSubstr (strLower e) "quota" = false)
    (hr : hasSubstr (strLower e) "rate" = false)
    (hi : hasSubstr (strLower e) "invalid" = false) :
    handleAttemptError p k e t = (p, []) := by
  simp [handleAttemptError, hq, hr, hi]

/-- Witness for C4 (amended) at the concrete error `"boom"`. -/
theorem C4_amended_witness :
    (hasSubstr (strLower "boom") "quota" = false ∧
     hasSubstr (strLower "boom") "rate" = false ∧
     hasSubstr (strLower "boom") "invalid" = false) ∧
    handleAttemptError (initPool ["k1"]) "k1" "boom" 7
      = (initPool ["k1"], []) :=
  ⟨⟨by decide, by decide, by decide⟩,
    C4_amended_other_error_no_cooldown (initPool ["k1"]) "k1" "boom" 7
      (by decide) (by decide) (by decide)⟩

/-! ## Claim C5 -/

/-- Claim C5: after the cooldown sweep, `get_available_key` computes the
candidate set `candidatesAt p t` (records with `available == true` and
`request_count < max_requests_per_minute`).  If it is empty the call returns
`None` and the selection step changes nothing (the state is exactly the
post-sweep state); otherwise the returned credential is a candidate whose
`(request_count, last_used)` sort key is a minimum of the candidate set under
the lexicographic order `keyLe`, and the resulting state updates exactly that
record's position (`last_used := now`, `request_count` incremented), leaving
every other record as the sweep left it. -/
theorem C5_selection (p : GeminiAPIPool) (t : Int)
    (hnd : (p.key_status.map APIKeyStatus.key).Nodup) :
    (candidatesAt p t = [] →
      get_available_key p t
        = (none, { p with key_status := reset_cooldowns p.key_status t })) ∧
    (candidatesAt p t ≠ [] →
      ∃ i : Fin (reset_cooldowns p.key_status t).length,
        (reset_cooldowns p.key_status t).get i ∈ candidatesAt p t ∧
        (∀ c ∈ candidatesAt p t,
          keyLe ((reset_cooldowns p.key_status t).get i) c = true) ∧
        get_available_key p t
          = (some ((reset_cooldowns p.key_status t).get i).key,
             { p with key_status :=
                ((reset_cooldowns p.key_status t).set i
                  ({ (reset_cooldowns p.key_status t).get i with
                     last_used := t
                     request_count :=
                       ((reset_cooldowns p.key_status t).get i).request_count
                         + 1 })) })) := by
  have hndks : ((reset_cooldowns p.key_status t).map APIKeyStatus.key).Nodup := by
    rw [reset_cooldowns_map_key]; exact hnd
  constructor
  · intro hc
    have h0 : List.insertionSort keyLeR
        ((reset_cooldowns p.key_status t).filter
          (isCandidate p.max_requests_per_minute)) = [] := by
      have he : (reset_cooldowns p.key_status t).filter
          (isCandidate p.max_requests_per_minute) = [] := hc
      rw [he]
      rfl
    simp only [get_available_key]
    rw [h0]
  · intro hne
    rcases hsort : List.insertionSort keyLeR
        ((reset_cooldowns p.key_status t).filter
          (isCandidate p.max_requests_per_minute)) with _ | ⟨sel, rest⟩
    · exfalso
      have hperm := List.perm_insertionSort keyLeR
        ((reset_cooldowns p.key_status t).filter
          (isCandidate p.max_requests_per_minute))
      rw [hsort] at hperm
      exact hne hperm.nil_eq.symm
    · have hperm := List.perm_insertionSort keyLeR
        ((reset_cooldowns p.key_status t).filter
          (isCandidate p.max_requests_per_minute))
      rw [hsort] at hperm
      have hselmem : sel ∈ candidatesAt p t :=
        hperm.subset (List.mem_cons_self _ _)
      have hsorted := List.sorted_insertionSort keyLeR
        ((reset_cooldowns p.key_status t).filter
          (isCandidate p.max_requests_per_minute))
      rw [hsort] at hsorted
      have hmin : ∀ c ∈ candidatesAt p t, keyLe sel c = true := by
        intro c hc
        have hc2 : c ∈ sel :: rest := hperm.mem_iff.mpr hc
        rcases List.mem_cons.mp hc2 with rfl | hc3
        · exact keyLe_refl c
        · exact List.rel_of_sorted_cons hsorted c hc3
      have hselks : sel ∈ reset_cooldowns p.key_status t :=
        (List.mem_filter.mp hselmem).1
      obtain ⟨i, hi⟩ := List.get_of_mem hselks
      refine ⟨i, ?_, ?_, ?_⟩
      · rw [hi]; exact hselmem
      · rw [hi]; exact hmin
      · simp only [get_available_key]
        rw [hsort]
        dsimp only
        rw [← hi]
        rw [map_update_eq_set _ hndks i
          (fun s => { s with last_used := t,
                             request_count := s.request_count + 1 })]

/-- Witness for C5 at a concrete 2-credential pool. -/
theorem C5_selection_witness :
    ((initPool ["key1", "key2"]).key_status.map APIKeyStatus.key).Nodup ∧
    ((candidatesAt (initPool ["key1", "key2"]) 1 = [] →
      get_available_key (initPool ["key1", "key2"]) 1
        = (none, { initPool ["key1", "key2"] with
            key_status :=
              reset_cooldowns (initPool ["key1", "key2"]).key_status 1 })) ∧
    (candidatesAt (initPool ["key1", "key2"]) 1 ≠ [] →
      ∃ i : Fin (reset_cooldowns (initPool ["key1", "key2"]).key_status 1).length,
        (reset_cooldowns (initPool ["key1", "key2"]).key_status 1).get i
          ∈ candidatesAt (initPool ["key1", "key2"]) 1 ∧
        (∀ c ∈ candidatesAt (initPool ["key1", "key2"]) 1,
          keyLe ((reset_cooldowns (initPool ["key1", "key2"]).key_status 1).get i)
            c = true) ∧
        get_available_key (initPool ["key1", "key2"]) 1
          = (some ((reset_cooldowns
                (initPool ["key1", "key2"]).key_status 1).get i).key,
             { initPool ["key1", "key2"] with
               key_status :=
                ((reset_cooldowns (initPool ["key1", "key2"]).key_status 1).set i
                  ({ (reset_cooldowns
                       (initPool ["key1", "key2"]).key_status 1).get i with
                     last_used := 1
                     request_count :=
                       ((reset_cooldowns
                         (initPool ["key1", "key2"]).key_status 1).get
                           i).request_count + 1 })) }))) :=
  ⟨by decide, C5_selection (initPool ["key1", "key2"]) 1 (by decide)⟩

/-! ## Claim C6 -/

theorem get_available_key_config (p : GeminiAPIPool) (t : Int) :
    (get_available_key p t).2.max_requests_per_minute
      = p.max_requests_per_minute ∧
    (get_available_key p t).2.cooldown_duration = p.cooldown_duration := by
  simp only [get_available_key]
  split <;> exact ⟨rfl, rfl⟩

theorem get_available_key_map_key_eq (p : GeminiAPIPool) (t : Int) :
    (get_available_key p t).2.key_status.map APIKeyStatus.key
      = p.key_status.map APIKeyStatus.key := by
  simp only [get_available_key]
  split
  · exact reset_cooldowns_map_key _ _
  · dsimp only
    rw [map_key_preserving _ _ (fun s => by split <;> rfl),
      reset_cooldowns_map_key]

theorem mark_key_failed_config (p : GeminiAPIPool) (k et : String) (t : Int) :
    (mark_key_failed p k et t).max_requests_per_minute
      = p.max_requests_per_minute ∧
    (mark_key_failed p k et t).cooldown_duration = p.cooldown_duration := by
  simp only [mark_key_failed]
  split <;> exact ⟨rfl, rfl⟩

theorem mark_key_failed_map_key (p : GeminiAPIPool) (k et : String) (t : Int) :
    (mark_key_failed p k et t).key_status.map APIKeyStatus.key
      = p.key_status.map APIKeyStatus.key := by
  simp only [mark_key_failed]
  split
  · dsimp only
    exact map_key_preserving _ _ (fun s => by split <;> rfl)
  · rfl

/-- A record that is unavailable with a cooldown that has not yet expired
(`t ≤ c`, the sweep's reset condition `cooldown_until < t` being false) is
never returned by `get_available_key` and survives the call untouched. -/
theorem get_available_key_keeps_cooled (q : GeminiAPIPool) (k : String)
    (c t : Int) (hnd : (q.key_status.map APIKeyStatus.key).Nodup)
    (hrec : ∃ s ∈ q.key_status,
      s.key = k ∧ s.is_available = false ∧ s.cooldown_until = c)
    (ht : t ≤ c) :
    (get_available_key q t).1 ≠ some k ∧
    ∃ s ∈ (get_available_key q t).2.key_status,
      s.key = k ∧ s.is_available = false ∧ s.cooldown_until = c := by
  obtain ⟨s, hs, hk, hav, hc⟩ := hrec
  have hndks : ((reset_cooldowns q.key_status t).map APIKeyStatus.key).Nodup := by
    rw [reset_cooldowns_map_key]; exact hnd
  have hnolt : ¬ s.cooldown_until < t := by rw [hc]; omega
  have hsweep : s ∈ reset_cooldowns q.key_status t :=
    List.mem_map.mpr ⟨s, hs, if_neg hnolt⟩
  rcases hsort : List.insertionSort keyLeR
      ((reset_cooldowns q.key_status t).filter
        (isCandidate q.max_requests_per_minute)) with _ | ⟨sel, rest⟩
  · have hget : get_available_key q t
        = (none, { q with key_status := reset_cooldowns q.key_status t }) := by
      simp only [get_available_key]; rw [hsort]
    rw [hget]
    exact ⟨by simp, ⟨s, hsweep, hk, hav, hc⟩⟩
  · have hperm := List.perm_insertionSort keyLeR
      ((reset_cooldowns q.key_status t).filter
        (isCandidate q.max_requests_per_minute))
    rw [hsort] at hperm
    have hselmem : sel ∈ (reset_cooldowns q.key_status t).filter
        (isCandidate q.max_requests_per_minute) :=
      hperm.subset (List.mem_cons_self _ _)
    have hselks : sel ∈ reset_cooldowns q.key_status t :=
      (List.mem_filter.mp hselmem).1
    have hselav : sel.is_available = true := by
      have hcand := (List.mem_filter.mp hselmem).2
      simp only [isCandidate, Bool.and_eq_true] at hcand
      exact hcand.1
    have hselkey : sel.key ≠ k := by
      intro hkeq
      have heq : sel = s :=
        List.inj_on_of_nodup_map hndks hselks hsweep (by rw [hkeq, hk])
      rw [heq, hav] at hselav
      exact Bool.false_ne_true hselav
    have hget : get_available_key q t
        = (some sel.key,
           { q with key_status :=
              (reset_cooldowns q.key_status t).map (fun s2 =>
                if s2.key == sel.key then
                  { s2 with last_used := t,
                            request_count := s2.request_count + 1 }
                else s2) }) := by
      simp only [get_available_key]; rw [hsort]
    rw [hget]
    constructor
    · simp only [ne_eq, Option.some.injEq]
      exact fun he => hselkey he
    · have hbf : (s.key == sel.key) = false := by
        rw [hk]
        exact beq_eq_false_iff_ne.mpr (fun he => hselkey he.symm)
      refine ⟨s, List.mem_map.mpr ⟨s, hsweep, ?_⟩, hk, hav, hc⟩
      simp [hbf]

/-- Once its cooldown has strictly expired (`c < t`), a cooled-down record is
reset by the sweep and passes the candidate filter (provided the request cap
is positive), so its key is eligible for selection. -/
theorem eligibleKey_after_cooldown (q : GeminiAPIPool) (k : String) (c t : Int)
    (hrec : ∃ s ∈ q.key_status,
      s.key = k ∧ s.is_available = false ∧ s.cooldown_until = c)
    (hmax : 0 < q.max_requests_per_minute) (ht : c < t) :
    eligibleKey q k t = true := by
  obtain ⟨s, hs, hk, _, hc⟩ := hrec
  have hlt : s.cooldown_until < t := by rw [hc]; omega
  have hmem : ({ s with is_available := true, request_count := 0 }
      : APIKeyStatus) ∈ reset_cooldowns q.key_status t :=
    List.mem_map.mpr ⟨s, hs, if_pos hlt⟩
  have hcand : isCandidate q.max_requests_per_minute
      { s with is_available := true, request_count := 0 } = true := by
    simp [isCandidate, hmax]
  rw [eligibleKey, List.any_eq_true]
  exact ⟨_, List.mem_filter.mpr ⟨hmem, hcand⟩, by simp [hk]⟩

/-- Running any sequence of acquisitions at times at or before the cooldown
deadline `c` never hands out the cooled key `k`, and preserves its cooled
record, the credential list and the request cap. -/
theorem runAcquires_avoid_cooled (k : String) (c : Int) :
    ∀ (ts : List Int) (q : GeminiAPIPool),
      (q.key_status.map APIKeyStatus.key).Nodup →
      (∃ s ∈ q.key_status,
        s.key = k ∧ s.is_available = false ∧ s.cooldown_until = c) →
      (∀ t ∈ ts, t ≤ c) →
      (∀ r ∈ (runAcquires q ts).1, r ≠ some k) ∧
      (runAcquires q ts).2.key_status.map APIKeyStatus.key
        = q.key_status.map APIKeyStatus.key ∧
      (runAcquires q ts).2.max_requests_per_minute
        = q.max_requests_per_minute ∧
      (∃ s ∈ (runAcquires q ts).2.key_status,
        s.key = k ∧ s.is_available = false ∧ s.cooldown_until = c)
  | [], q, _, hrec, _ => by
    refine ⟨?_, rfl, rfl, hrec⟩
    intro r hr
    simp [runAcquires] at hr
  | t :: ts, q, hnd, hrec, hts => by
    obtain ⟨h1, hrec1⟩ :=
      get_available_key_keeps_cooled q k c t hnd hrec
        (hts t (List.mem_cons_self _ _))
    have hnd1 : ((get_available_key q t).2.key_status.map
        APIKeyStatus.key).Nodup := by
      rw [get_available_key_map_key_eq]; exact hnd
    obtain ⟨ih1, ih2, ih3, ih4⟩ :=
      runAcquires_avoid_cooled k c ts (get_available_key q t).2 hnd1 hrec1
        (fun t2 ht2 => hts t2 (List.mem_cons_of_mem _ ht2))
    refine ⟨?_, ?_, ?_, ih4⟩
    · intro r hr
      rcases List.mem_cons.mp hr with rfl | hr2
      · exact h1
      · exact ih1 r hr2
    · rw [show (runAcquires q (t :: ts)).2
          = (runAcquires (get_available_key q t).2 ts).2 from rfl,
        ih2, get_available_key_map_key_eq]
    · rw [show (runAcquires q (t :: ts)).2
          = (runAcquires (get_available_key q t).2 ts).2 from rfl,
        ih3, (get_available_key_config q t).1]

/-- Claim C6 counterexample: on a 1-credential pool, `mark_key_failed` at
`T = 10` (cooldown 60) excludes the key at `t = 70 = T + cooldown_duration`
as well — the sweep's condition is the strict `cooldown_until < t`, so the
call returns `None` and the key is not even a candidate, contradicting the
claimed eligibility at every `t ≥ T + cooldown_duration`. -/
theorem C6_counterexample :
    (get_available_key
        (mark_key_failed (initPool ["k1"]) "k1" "rate_limit" 10) 70).1
      = none ∧
    eligibleKey (mark_key_failed (initPool ["k1"]) "k1" "rate_limit" 10)
        "k1" 70 = false := by
  decide

/-- Claim C6 (amended): a credential failure-reported at time `T` is excluded
from the result of every `acquire_credential` call at every time `t` in the
*closed* interval `[T, T + cooldown_duration]` (the sweep resets only when
`cooldown_until < t`, so the boundary instant is still excluded), and is
eligible for selection again at any time strictly after
`T + cooldown_duration`, assuming no further failure reports for it. -/
theorem C6_amended_cooldown_window (p : GeminiAPIPool) (k et : String)
    (T : Int) (ts : List Int) (u : Int)
    (hnd : (p.key_status.map APIKeyStatus.key).Nodup)
    (hmem : k ∈ p.key_status.map APIKeyStatus.key)
    (hmax : 0 < p.max_requests_per_minute)
    (hts : ∀ t ∈ ts, T ≤ t ∧ t ≤ T + p.cooldown_duration)
    (hu : T + p.cooldown_duration < u) :
    (∀ r ∈ (runAcquires (mark_key_failed p k et T) ts).1, r ≠ some k) ∧
    eligibleKey (runAcquires (mark_key_failed p k et T) ts).2 k u = true := by
  obtain ⟨s0, hs0, hk0⟩ := List.mem_map.mp hmem
  have hany : (p.key_status.any (fun s => s.key == k)) = true := by
    rw [List.any_eq_true]
    exact ⟨s0, hs0, by simp [hk0]⟩
  have hrec : ∃ s ∈ (mark_key_failed p k et T).key_status,
      s.key = k ∧ s.is_available = false ∧
      s.cooldown_until = T + p.cooldown_duration := by
    rw [mark_key_failed, if_pos hany]
    exact ⟨({ s0 with
        is_available := false
        cooldown_until := T + p.cooldown_duration }),
      List.mem_map.mpr ⟨s0, hs0, by simp [hk0]⟩, by simp [hk0], rfl, rfl⟩
  have hndm : ((mark_key_failed p k et T).key_status.map
      APIKeyStatus.key).Nodup := by
    rw [mark_key_failed_map_key]; exact hnd
  obtain ⟨h1, _, h3, h4⟩ :=
    runAcquires_avoid_cooled k (T + p.cooldown_duration) ts
      (mark_key_failed p k et T) hndm hrec (fun t ht => (hts t ht).2)
  refine ⟨h1, ?_⟩
  apply eligibleKey_after_cooldown _ _ _ u h4 ?_ hu
  rw [h3, (mark_key_failed_config p k et T).1]
  exact hmax

/-- Witness for C6 (amended): 2-credential pool, failure at `T = 0`,
acquisitions at times 5 and 60 (within the closed window `[0, 60]`),
eligibility checked at 61. -/
theorem C6_amended_witness :
    (((initPool ["a", "b"]).key_status.map APIKeyStatus.key).Nodup ∧
     "a" ∈ (initPool ["a", "b"]).key_status.map APIKeyStatus.key ∧
     0 < (initPool ["a", "b"]).max_requests_per_minute ∧
     (∀ t ∈ [(5 : Int), 60], (0 : Int) ≤ t ∧
        t ≤ 0 + (initPool ["a", "b"]).cooldown_duration) ∧
     (0 : Int) + (initPool ["a", "b"]).cooldown_duration < 61) ∧
    (∀ r ∈ (runAcquires
        (mark_key_failed (initPool ["a", "b"]) "a" "rate_limit" 0)
        [(5 : Int), 60]).1, r ≠ some "a") ∧
    eligibleKey (runAcquires
        (mark_key_failed (initPool ["a", "b"]) "a" "rate_limit" 0)
        [(5 : Int), 60]).2 "a" 61 = true :=
  ⟨⟨by decide, by decide, by decide, by decide, by decide⟩,
    C6_amended_cooldown_window (initPool ["a", "b"]) "a" "rate_limit" 0
      [(5 : Int), 60] 61 (by decide) (by decide) (by decide) (by decide)
      (by decide)⟩

/-! ## Claim C7 -/

theorem foldl_statusStep (t : Int) :
    ∀ (l : List APIKeyStatus) (acc : PoolStatusRec),
      List.foldl (statusStep t) acc l =
        { total_keys := acc.total_keys
          available_keys := acc.available_keys + l.countP (fun s => s.is_available)
          rate_limited_keys :=
            acc.rate_limited_keys + l.countP (fun s => !s.is_available)
          keys := acc.keys ++ l.map (keyInfoOf t) }
  | [], acc => by simp
  | s :: l, acc => by
    rw [List.foldl_cons, foldl_statusStep t l]
    by_cases h : s.is_available <;>
      simp [statusStep, h, List.countP_cons, Nat.add_assoc, Nat.add_comm]

/-- Claim C7: `get_pool_status` never mutates any credential record — the
state it returns is exactly the state it was given (so any number of calls
leaves every `request_count`, `available` and `cooldown_until` unchanged) —
and it returns the total credential count, the number of available records,
the number of records in cooldown, and one `(masked id, availability,
request_count, cooldown remaining clamped at zero)` tuple per record. -/
theorem C7_pool_status_readonly (p : GeminiAPIPool) (t : Int) :
    (get_pool_status p t).2 = p ∧
    (get_pool_status p t).1.total_keys = p.api_keys.length ∧
    (get_pool_status p t).1.available_keys
      = p.key_status.countP (fun s => s.is_available) ∧
    (get_pool_status p t).1.rate_limited_keys
      = p.key_status.countP (fun s => !s.is_available) ∧
    (get_pool_status p t).1.keys = p.key_status.map (fun s =>
      { key_id := lastChars s.key 8
        available := s.is_available
        request_count := s.request_count
        cooldown_remaining := max 0 (s.cooldown_until - t) }) := by
  refine ⟨rfl, ?_, ?_, ?_, ?_⟩ <;>
    simp [get_pool_status, foldl_statusStep, keyInfoOf]

/-! ## Claim C8 -/

theorem genStreamRetryAux_eq_map (uow : Nat → String → Except String α)
    (uowS : Nat → String → Except String β) (f : α → β)
    (hrel : ∀ n k, uowS n k = (uow n k).map f) (tAcq tFail : Nat → Int)
    (M : Nat) :
    ∀ (remaining : Nat) (p : GeminiAPIPool),
      genStreamRetryAux uowS tAcq tFail M remaining p
        = ((genRetryAux uow tAcq tFail M remaining p).1.map f,
           (genRetryAux uow tAcq tFail M remaining p).2.1,
           (genRetryAux uow tAcq tFail M remaining p).2.2)
  | 0, _ => rfl
  | remaining + 1, p => by
    rw [genStreamRetryAux, genRetryAux]
    generalize M - (remaining + 1) = n
    rcases hga : get_available_key p (tAcq n) with ⟨k?, p1⟩
    rcases k? with _ | k
    · by_cases hr : remaining = 0
      · simp [hga, hr, RetryResult.map]
      · simp [hga, hr,
          genStreamRetryAux_eq_map uow uowS f hrel tAcq tFail M remaining]
    · rcases huow : uow n k with e | a
      · have huowS : uowS n k = Except.error e := by rw [hrel, huow]; rfl
        by_cases hr : remaining = 0
        · simp [hga, huow, huowS, hr, RetryResult.map]
        · simp [hga, huow, huowS, hr,
            genStreamRetryAux_eq_map uow uowS f hrel tAcq tFail M remaining]
      · have huowS : uowS n k = Except.ok (f a) := by rw [hrel, huow]; rfl
        simp [hga, huow, huowS, RetryResult.map]

/-- Claim C8: the streaming retry loop has pool-state semantics identical to
the non-streaming one.  If the streaming unit of work fails exactly when and
how the non-streaming one does (it is the same call, merely returning the
open stream handle `f a` instead of the materialized result `a`), then both
loops produce the same final pool state and the same event trace — the same
credential selections, the same `mark_key_failed` calls with the same
classifications, the same backoff sleeps — and the same terminal raise; they
differ only in the success payload. -/
theorem C8_stream_same_semantics (p : GeminiAPIPool)
    (uow : Nat → String → Except String α) (f : α → β)
    (tAcq tFail : Nat → Int) (max_retries : Nat) :
    generate_content_stream_with_retry p (fun n k => (uow n k).map f)
        tAcq tFail max_retries
      = ((generate_content_with_retry p uow tAcq tFail max_retries).1.map f,
         (generate_content_with_retry p uow tAcq tFail max_retries).2.1,
         (generate_content_with_retry p uow tAcq tFail max_retries).2.2) := by
  rw [generate_content_stream_with_retry, generate_content_with_retry,
    genStreamRetryAux_eq_map uow (fun n k => (uow n k).map f) f
      (fun _ _ => rfl) tAcq tFail max_retries]

/-! ## Claim C10 -/

/-- Claim C10: `mark_key_failed` with a credential string that is not in the
pool is a total no-op — the guard `if api_key in self.key_status` fails and
the state (every record's fields included) is returned unchanged. -/
theorem C10_mark_unknown_key_noop (p : GeminiAPIPool) (k et : String) (t : Int)
    (h : ∀ s ∈ p.key_status, s.key ≠ k) :
    mark_key_failed p k et t = p := by
  have hany : (p.key_status.any (fun s => s.key == k)) = false := by
    simp only [List.any_eq_false]
    intro s hs
    simpa using h s hs
  simp [mark_key_failed, hany]

/-- Witness for C10 at a concrete pool and a foreign key. -/
theorem C10_mark_unknown_key_noop_witness :
    (∀ s ∈ (initPool ["k1", "k2"]).key_status, s.key ≠ "zzz") ∧
    mark_key_failed (initPool ["k1", "k2"]) "zzz" "invalid_key" 5
      = initPool ["k1", "k2"] :=
  ⟨by decide,
    C10_mark_unknown_key_noop (initPool ["k1", "k2"]) "zzz" "invalid_key" 5
      (by decide)⟩

end GeminiPool
